import Mathlib

/-!
Verification development for the photobooth repository.

The repository has three source files:
* `src/app/api/photobooth/edit/route.ts` — the Edit Handler (proxies an image
  plus an instruction to an external multimodal generation provider and relays
  the first returned inline image back to the caller);
* `src/app/api/photobooth/upload/route.ts` — the Upload Handler (persists an
  uploaded file under `public/uploads` and returns its public path);
* `src/app/dev/edit-test/page.tsx` (and a second page component) — the Client
  Controller (selected-file / loading / result / error state bookkeeping, plus
  a camera countdown timer).

Each TypeScript function relevant to the claims is embedded below as an
executable Lean definition; nondeterministic inputs of the original code
(wall clock, random UUID, upstream provider response, fetch responses) are
passed as explicit parameters.
-/

namespace Photobooth

/-- Byte strings are lists of naturals (each below 256 in practice). -/
abbrev Bytes := List Nat

/-! ### Base64, as used by `Buffer.from(arrayBuffer).toString("base64")`
and `Buffer.from(base64String, "base64")` in the Edit Handler. -/

/-- Index of a character in the standard base64 alphabet
(`A`-`Z`, `a`-`z`, `0`-`9`, `+`, `/`); `none` for any other character.
Node's decoder skips characters outside the alphabet (including `=`). -/
def b64IndexOf (c : Char) : Option Nat :=
  if 'A' ≤ c ∧ c ≤ 'Z' then some (c.toNat - 'A'.toNat)
  else if 'a' ≤ c ∧ c ≤ 'z' then some (c.toNat - 'a'.toNat + 26)
  else if '0' ≤ c ∧ c ≤ '9' then some (c.toNat - '0'.toNat + 52)
  else if c = '+' then some 62
  else if c = '/' then some 63
  else none

/-- Character of the standard base64 alphabet at a six-bit index. -/
def b64CharOf (n : Nat) : Char :=
  if n < 26 then Char.ofNat ('A'.toNat + n)
  else if n < 52 then Char.ofNat ('a'.toNat + n - 26)
  else if n < 62 then Char.ofNat ('0'.toNat + n - 52)
  else if n = 62 then '+'
  else '/'

/-- Padded base64 encoding of a byte string, three input bytes per four
output characters (the behavior of `Buffer.toString("base64")`). -/
def b64EncodeList : Bytes → List Char
  | b1 :: b2 :: b3 :: rest =>
      let n := b1 * 65536 + b2 * 256 + b3
      b64CharOf (n / 262144) :: b64CharOf (n / 4096 % 64) ::
        b64CharOf (n / 64 % 64) :: b64CharOf (n % 64) :: b64EncodeList rest
  | [b1, b2] =>
      let n := b1 * 1024 + b2 * 4
      [b64CharOf (n / 4096), b64CharOf (n / 64 % 64), b64CharOf (n % 64), '=']
  | [b1] =>
      let n := b1 * 16
      [b64CharOf (n / 64), b64CharOf (n % 64), '=', '=']
  | [] => []

/-- `fileToBase64` in the edit route: encode a file's bytes as base64 text. -/
def encodeBase64 (bs : Bytes) : String :=
  String.mk (b64EncodeList bs)

/-- Decode a stream of six-bit values into bytes, four values per three
bytes, with the usual handling of a two- or three-value remainder. -/
def b64DecodeGroups : List Nat → Bytes
  | a :: b :: c :: d :: rest =>
      (a * 4 + b / 16) :: ((b % 16) * 16 + c / 4) :: ((c % 4) * 64 + d) ::
        b64DecodeGroups rest
  | [a, b] => [a * 4 + b / 16]
  | [a, b, c] => [a * 4 + b / 16, (b % 16) * 16 + c / 4]
  | _ => []

/-- `Buffer.from(s, "base64")`: forgiving base64 decoding — characters
outside the alphabet (padding included) are ignored. -/
def decodeBase64 (s : String) : Bytes :=
  b64DecodeGroups (s.toList.filterMap b64IndexOf)

/-! ### Edit Handler — `src/app/api/photobooth/edit/route.ts` -/

/-- The `inlineData` field of a provider content part: an optional MIME type
and an optional base64 payload (`InlineImagePart` in the route). -/
structure InlineData where
  mimeType : Option String
  data : Option String
deriving DecidableEq, Repr

/-- One content part of a provider candidate: optional inline data and
optional text. -/
structure ResponsePart where
  inlineData : Option InlineData
  text : Option String
deriving DecidableEq, Repr

/-- The `content` object of a provider candidate, with an optional
`parts` array. -/
structure CandContent where
  parts : Option (List ResponsePart)
deriving DecidableEq, Repr

/-- One candidate of a provider response, with an optional `content`. -/
structure Candidate where
  content : Option CandContent
deriving DecidableEq, Repr

/-- A provider response: an optional array of candidates. -/
structure UpstreamResponse where
  candidates : Option (List Candidate)
deriving DecidableEq, Repr

/-- `response.candidates?.[0]?.content?.parts ?? []` from the edit route. -/
def getParts (r : UpstreamResponse) : List ResponsePart :=
  match r.candidates with
  | some (c :: _) =>
      match c.content with
      | some ct => ct.parts.getD []
      | none => []
  | _ => []

/-- `p.inlineData?.data` of a content part. -/
def partData (p : ResponsePart) : Option String :=
  p.inlineData.bind InlineData.data

/-- `p.inlineData?.mimeType` of a content part. -/
def partMime (p : ResponsePart) : Option String :=
  p.inlineData.bind InlineData.mimeType

/-- The uploaded file as the Edit Handler sees it: raw bytes plus the
caller-declared MIME type (`file.type`, the empty string when absent). -/
structure EditFile where
  content : Bytes
  type : String
deriving DecidableEq, Repr

/-- An Edit Handler request: the optional `file` form part and the optional
`instruction` form field. -/
structure EditRequest where
  file : Option EditFile
  instruction : Option String
deriving DecidableEq, Repr

/-- One content part of the outbound provider request. -/
inductive ReqPart
  | inline (mimeType : String) (data : String)
  | text (s : String)
deriving DecidableEq, Repr

/-- The outbound provider request built by the edit route: one user turn
whose parts are the inline image then the instruction text. -/
structure UpstreamRequest where
  model : String
  role : String
  parts : List ReqPart
deriving DecidableEq, Repr

/-- The `ai.models.generateContent` argument built by the edit route. -/
def mkUpstreamRequest (f : EditFile) (instr : String) : UpstreamRequest :=
  { model := "gemini-2.5-flash-image"
    role := "user"
    parts :=
      [ReqPart.inline (if f.type = "" then "image/jpeg" else f.type)
        (encodeBase64 f.content),
       ReqPart.text instr] }

/-- Outcome of the edit route's validation stage (everything before the
provider call): one of the three early error returns, or the provider
invocation with the request it is given. -/
inductive EditStage
  | missingFile
  | missingInstruction
  | missingKey
  | callUpstream (u : UpstreamRequest)
deriving DecidableEq, Repr

/-- Validation stage of the edit route. `instruction` is
`String(form.get("instruction") ?? "")`, so an absent field behaves as the
empty string; the key check is `!process.env.GEMINI_API_KEY`, so an absent
or empty variable both fail. The guards run in source order:
file, instruction, key. -/
def editStage (apiKey : Option String) (req : EditRequest) : EditStage :=
  match req.file with
  | none => EditStage.missingFile
  | some f =>
      let instr := req.instruction.getD ""
      if instr = "" then EditStage.missingInstruction
      else if apiKey.getD "" = "" then EditStage.missingKey
      else EditStage.callUpstream (mkUpstreamRequest f instr)

/-- Whether the validation stage reached the provider call. -/
def invokesUpstream : EditStage → Bool
  | EditStage.callUpstream _ => true
  | _ => false

/-- An HTTP response of the edit route: either a JSON error body with a
status, or raw image bytes with a content type and a cache directive. -/
inductive EditResponse
  | jsonError (error : String) (status : Nat)
  | imageBytes (body : Bytes) (contentType : String) (cacheControl : String)
deriving DecidableEq, Repr

/-- Response-extraction stage of the edit route applied to the provider
response: `parts.find((p) => p.inlineData?.data !== undefined)`, then the
guard `!imgPart?.inlineData?.data` (which also rejects an empty payload),
then `Buffer.from(outBase64, "base64")` with content type
`imgPart.inlineData.mimeType || "image/png"` and `Cache-Control: no-store`. -/
def editRespond (r : UpstreamResponse) : EditResponse :=
  match (getParts r).find? (fun p => (partData p).isSome) with
  | none => EditResponse.jsonError "No image returned from model" 502
  | some p =>
      match partData p with
      | none => EditResponse.jsonError "No image returned from model" 502
      | some d =>
          if d = "" then EditResponse.jsonError "No image returned from model" 502
          else
            EditResponse.imageBytes (decodeBase64 d)
              (if (partMime p).getD "" = "" then "image/png"
               else (partMime p).getD "")
              "no-store"

/-- The whole `POST` of the edit route (non-throwing paths), with the
provider modelled as a function from the outbound request to its response. -/
def editHandler (apiKey : Option String) (req : EditRequest)
    (upstream : UpstreamRequest → UpstreamResponse) : EditResponse :=
  match editStage apiKey req with
  | EditStage.missingFile => EditResponse.jsonError "Missing file" 400
  | EditStage.missingInstruction => EditResponse.jsonError "Missing instruction" 400
  | EditStage.missingKey => EditResponse.jsonError "Missing GEMINI_API_KEY" 500
  | EditStage.callUpstream u => editRespond (upstream u)

/-! ### Upload Handler — `src/app/api/photobooth/upload/route.ts` -/

/-- JavaScript `String.prototype.split(".")` over a character list: splits at
every `.`; always returns a non-empty list; a trailing `.` yields a trailing
empty segment, and the empty string yields one empty segment. -/
def splitOnDot : List Char → List (List Char)
  | [] => [[]]
  | c :: rest =>
      if c = '.' then [] :: splitOnDot rest
      else
        match splitOnDot rest with
        | s :: ss => (c :: s) :: ss
        | [] => [[c]]

/-- `n.split(".").pop()` for a string `n`: the last `.`-separated segment
(JavaScript `pop` on the always-non-empty split result). -/
def jsPopSplitDot (n : String) : String :=
  String.mk ((splitOnDot n.toList).getLastD [])

/-- `s.toLowerCase()`: lowercase character by character (identical to
`String.toLower`, but structurally recursive so that proofs can evaluate
it). -/
def jsToLower (s : String) : String :=
  String.mk (s.toList.map Char.toLower)

/-- `(file.name?.split(".").pop() || "png").toLowerCase()` from the upload
route: the extension is the lowercased last `.`-separated segment of the
original name, with `"png"` substituted when the name is absent or that
segment is empty. -/
def uploadExt (name : Option String) : String :=
  jsToLower
    (match name with
     | none => "png"
     | some n => if jsPopSplitDot n = "" then "png" else jsPopSplitDot n)

/-- `` `${Date.now()}-${randomUUID()}.${ext}` `` from the upload route, with
the wall clock and the UUID passed in explicitly. -/
def storedFilename (name : Option String) (now : Nat) (uuid : String) : String :=
  toString now ++ "-" ++ uuid ++ "." ++ uploadExt name

/-- The uploaded file as the Upload Handler sees it: the original filename
(`file.name`, possibly undefined) and the raw bytes. -/
structure UploadFile where
  name : Option String
  content : Bytes
deriving DecidableEq, Repr

/-- An Upload Handler request: the optional `file` form part. -/
structure UploadRequest where
  file : Option UploadFile
deriving DecidableEq, Repr

/-- A filesystem operation performed by the upload route.
`writeFileDirect` is `fs.writeFile` straight to its destination path;
`renameInto` is a `rename` publishing `src` at `dst` (present in the model so
that the absence of any rename step in the route's trace can be stated). -/
inductive FsOp
  | mkdirRecursive (dir : String)
  | writeFileDirect (path : String) (content : Bytes)
  | renameInto (src : String) (dst : String)
deriving DecidableEq, Repr

/-- JSON body of an upload response: an error message or a url. -/
inductive UploadBody
  | errBody (msg : String)
  | urlBody (url : String)
deriving DecidableEq, Repr

/-- Result of one upload invocation: HTTP status, JSON body, and the ordered
filesystem operations the route performed. -/
structure UploadOutcome where
  status : Nat
  body : UploadBody
  fsOps : List FsOp
deriving DecidableEq, Repr

/-- `path.join(process.cwd(), "public", "uploads")`. -/
def uploadsDirOf (cwd : String) : String :=
  cwd ++ "/public/uploads"

/-- The whole `POST` of the upload route (non-throwing paths): reject a
missing file with 400, otherwise `mkdir -p` the uploads directory, write the
file's bytes directly to `<uploadsDir>/<millis>-<uuid>.<ext>`, and answer
200 with `{ url: "/uploads/<filename>" }`. -/
def uploadHandler (req : UploadRequest) (cwd : String) (now : Nat)
    (uuid : String) : UploadOutcome :=
  match req.file with
  | none => { status := 400, body := UploadBody.errBody "Missing file", fsOps := [] }
  | some f =>
      let dir := uploadsDirOf cwd
      let filename := storedFilename f.name now uuid
      let filepath := dir ++ "/" ++ filename
      { status := 200
        body := UploadBody.urlBody ("/uploads/" ++ filename)
        fsOps := [FsOp.mkdirRecursive dir, FsOp.writeFileDirect filepath f.content] }

/-- All truncations (`take k`) of a byte string, the empty and the full one
included. -/
def byteTakes (c : Bytes) : List Bytes :=
  (List.range (c.length + 1)).map (fun k => c.take k)

/-- Modelled from the spec: the intermediate contents a concurrent reader of
path `p` can observe while one filesystem operation executes. `fs.writeFile`
is not atomic — it opens the destination itself and streams the buffer into
it, so any truncation of the final content is observable at the destination
(the spec's requirement is that "a reader never observes a truncated file at
the final path"); `mkdir` exposes nothing at a file path; `rename` publishes
its destination atomically, so it exposes no intermediate state. -/
def observableAt (op : FsOp) (p : String) : List Bytes :=
  match op with
  | FsOp.mkdirRecursive _ => []
  | FsOp.writeFileDirect q c => if q = p then byteTakes c else []
  | FsOp.renameInto _ _ => []

/-- All intermediate contents observable at path `p` over a trace. -/
def observableDuring (ops : List FsOp) (p : String) : List Bytes :=
  (ops.map (fun op => observableAt op p)).flatten

/-- Whether a trace ever publishes path `p` via a rename. -/
def renamesInto (ops : List FsOp) (p : String) : Bool :=
  ops.any (fun op =>
    match op with
    | FsOp.renameInto _ dst => dst = p
    | _ => false)

/-! ### Client Controller — `src/app/dev/edit-test/page.tsx` -/

/-- Which outbound operation is in flight (`loading` is `"upload"`,
`"edit"`, or `null`). -/
inductive LoadKind
  | upload
  | edit
deriving DecidableEq, Repr

/-- The JSON object a handler response parses to: optional `error` and
`url` fields (field absent = `none`). -/
structure RespData where
  error : Option String
  url : Option String
deriving DecidableEq, Repr

/-- A `fetch` result as the page consumes it: `res.ok` plus the result of
`safeJson` (`none` when the body is not JSON). -/
structure FetchResp where
  ok : Bool
  data : Option RespData
deriving DecidableEq, Repr

/-- The page's state: selected file (opaque reference), instruction text,
loading flag, current result reference, and error message. -/
structure ClientState where
  file : Option String
  instruction : String
  loading : Option LoadKind
  resultUrl : Option String
  error : Option String
deriving DecidableEq, Repr

/-- `isApiError(x)`: the parsed body is an object with an `error` field. -/
def isApiError (d : Option RespData) : Bool :=
  match d with
  | some x => x.error.isSome
  | none => false

/-- `isUploadOk(x)`: the parsed body is an object with a `url` field. -/
def isUploadOk (d : Option RespData) : Bool :=
  match d with
  | some x => x.url.isSome
  | none => false

/-- `saveLocally()` as a state transition, the fetch result passed in.
The function returns immediately when no file is selected; otherwise it sets
`loading`, clears `error` and `resultUrl`, and then on a non-ok response
stores `isApiError(data) ? data.error : "Upload failed"` and clears
`loading`; on an ok response it stores `data.url` (or the generic error when
the body lacks one) and clears `loading`. -/
def saveLocally (st : ClientState) (resp : FetchResp) : ClientState :=
  match st.file with
  | none => st
  | some _ =>
      let st1 := { st with loading := some LoadKind.upload, error := none,
                           resultUrl := none }
      if resp.ok = false then
        { st1 with
            error := some
              (match resp.data with
               | some d =>
                   match d.error with
                   | some e => e
                   | none => "Upload failed"
               | none => "Upload failed")
            loading := none }
      else if isUploadOk resp.data then
        { st1 with resultUrl := resp.data.bind RespData.url, loading := none }
      else
        { st1 with error := some "Upload failed", loading := none }

/-- `editWithGemini()` as a state transition; `blobUrl` models the object
URL created from the response blob on success. On a non-ok response the
message is `data?.error ?? "Edit failed (check your /api/photobooth/edit
backend)"`. -/
def editWithGemini (st : ClientState) (resp : FetchResp) (blobUrl : String) :
    ClientState :=
  match st.file with
  | none => st
  | some _ =>
      let st1 := { st with loading := some LoadKind.edit, error := none,
                           resultUrl := none }
      if resp.ok = false then
        { st1 with
            error := some ((resp.data.bind RespData.error).getD
              "Edit failed (check your /api/photobooth/edit backend)")
            loading := none }
      else
        { st1 with resultUrl := some blobUrl, loading := none }

/-! ### Countdown timer — the camera page component (`startCountdown`, the
interval callback, and the unmount cleanup `useEffect`). -/

/-- Countdown-relevant state of the camera page: whether the camera refs are
live (`streamRef.current && videoRef.current`), the `isCountingDown` and
`countdown` state, whether `countdownTimer.current` holds a live interval,
how many times `captureFrame` has fired, and the camera error message. -/
structure BoothState where
  cameraReady : Bool
  isCountingDown : Bool
  countdown : Option Nat
  timerActive : Bool
  captures : Nat
  cameraError : Option String
deriving DecidableEq, Repr

/-- `startCountdown()`: without a live camera it only sets the camera error;
while `isCountingDown` it returns at once; otherwise it clears any stale
interval, sets `isCountingDown`, sets `countdown` to 5 and installs the
interval (net effect: the timer is active). -/
def startCountdown (st : BoothState) : BoothState :=
  if st.cameraReady = false then
    { st with cameraError := some "Enable the camera first." }
  else if st.isCountingDown then st
  else { st with isCountingDown := true, countdown := some 5, timerActive := true }

/-- One firing of the installed interval (one second elapsing). The callback
runs only while the interval is live; `setCountdown` keeps a `null` or `0`
value unchanged (`if (!prev) return prev`); at `prev <= 1` it clears the
interval, resets `isCountingDown` and `countdown`, and invokes
`captureFrame`; otherwise it decrements. -/
def tick (st : BoothState) : BoothState :=
  if st.timerActive = false then st
  else
    match st.countdown with
    | none => st
    | some 0 => st
    | some 1 =>
        { st with timerActive := false, isCountingDown := false,
                  countdown := none, captures := st.captures + 1 }
    | some (n + 2) => { st with countdown := some (n + 1) }

/-- The unmount cleanup of the page's `useEffect`: `cleanupCamera()` stops
the stream, and any live interval is cleared with `clearInterval`. -/
def unmount (st : BoothState) : BoothState :=
  { st with cameraReady := false, timerActive := false }

/-- `k` seconds elapsing: `k` firings of the interval. -/
def tickN : Nat → BoothState → BoothState
  | 0, st => st
  | k + 1, st => tick (tickN k st)

/-! ### Concrete data used by counterexamples and witnesses -/

/-- A provider part whose inline data is present but empty. -/
def exPartEmpty : ResponsePart :=
  { inlineData := some { mimeType := none, data := some "" }, text := none }

/-- A provider part carrying a real (non-empty) inline image payload. -/
def exPartGood : ResponsePart :=
  { inlineData := some { mimeType := some "image/png", data := some "QQ==" },
    text := none }

/-- A provider response whose first candidate has the empty-data part first
and the real image part second. -/
def exRespC1 : UpstreamResponse :=
  { candidates := some [{ content := some { parts := some [exPartEmpty, exPartGood] } }] }

/-- A provider response whose first candidate carries one real image part. -/
def exRespGood : UpstreamResponse :=
  { candidates := some [{ content := some { parts := some [exPartGood] } }] }

/-- A client state holding a previously stored result reference. -/
def exStateC4 : ClientState :=
  { file := some "selected.png", instruction := "Corporate headshot",
    loading := none, resultUrl := some "/uploads/prev.png", error := none }

/-- A failed fetch response carrying an error payload. -/
def exFailResp : FetchResp :=
  { ok := false, data := some { error := some "boom", url := none } }

/-- An upload request with a concrete three-byte file named `a.png`. -/
def exUploadReq : UploadRequest :=
  { file := some { name := some "a.png", content := [1, 2, 3] } }

/-- A one-byte PNG file for the Edit Handler. -/
def exFileSmall : EditFile := { content := [1], type := "image/png" }

/-- A file with empty content and no declared MIME type. -/
def exEmptyFile : EditFile := { content := [], type := "" }

/-- A provider stub answering every request with an empty response. -/
def nilUpstream : UpstreamRequest → UpstreamResponse :=
  fun _ => { candidates := none }

/-- An upload request whose file has a dotless original filename. -/
def exUploadReqDotless : UploadRequest :=
  { file := some { name := some "photo", content := [7] } }

/-- A fresh camera-page state: camera live, no countdown running. -/
def exBooth : BoothState :=
  { cameraReady := true, isCountingDown := false, countdown := none,
    timerActive := false, captures := 0, cameraError := none }

/-! ### Helper lemmas -/

theorem mk_toList (s : String) : String.mk s.toList = s := by
  cases s
  rfl

theorem splitOnDot_ne_nil (l : List Char) : splitOnDot l ≠ [] := by
  induction l with
  | nil => simp [splitOnDot]
  | cons c rest ih =>
      unfold splitOnDot
      by_cases hc : c = '.'
      · simp [hc]
      · rw [if_neg hc]
        cases h : splitOnDot rest with
        | nil => exact absurd h ih
        | cons s ss => simp

theorem splitOnDot_no_dot (l : List Char) (h : '.' ∉ l) : splitOnDot l = [l] := by
  induction l with
  | nil => rfl
  | cons c rest ih =>
      have hc : c ≠ '.' := fun e => h (e ▸ List.mem_cons_self c rest)
      have hr : '.' ∉ rest := fun m => h (List.mem_cons_of_mem c m)
      unfold splitOnDot
      rw [if_neg hc, ih hr]

/-- For a name without a dot, the last split segment is the whole name. -/
theorem jsPopSplitDot_no_dot (n : String) (h : '.' ∉ n.toList) :
    jsPopSplitDot n = n := by
  unfold jsPopSplitDot
  rw [splitOnDot_no_dot n.toList h]
  simp [mk_toList]

/-! ### Claims about the Edit Handler -/

/-- Claim C2 (confirmed): Edit Handler validation runs in order with these
outcomes — absent file part gives the `MissingInput` error `Missing file`
(400); otherwise an absent or empty instruction gives the `MissingInput`
error `Missing instruction` (400) without invoking the upstream provider;
otherwise an unconfigured provider credential gives the
`MissingConfiguration` error `Missing GEMINI_API_KEY` (500) without invoking
the upstream provider. -/
theorem C2_edit_validation_order (apiKey : Option String) (req : EditRequest)
    (upstream : UpstreamRequest → UpstreamResponse) :
    (req.file = none →
      editHandler apiKey req upstream = EditResponse.jsonError "Missing file" 400 ∧
      invokesUpstream (editStage apiKey req) = false) ∧
    (req.file ≠ none → req.instruction.getD "" = "" →
      editHandler apiKey req upstream = EditResponse.jsonError "Missing instruction" 400 ∧
      invokesUpstream (editStage apiKey req) = false) ∧
    (req.file ≠ none → req.instruction.getD "" ≠ "" → apiKey.getD "" = "" →
      editHandler apiKey req upstream = EditResponse.jsonError "Missing GEMINI_API_KEY" 500 ∧
      invokesUpstream (editStage apiKey req) = false) := by
  refine ⟨?_, ?_, ?_⟩
  · intro h
    simp [editHandler, editStage, h, invokesUpstream]
  · intro hf hi
    cases hfile : req.file with
    | none => exact absurd hfile hf
    | some f => simp [editHandler, editStage, hfile, hi, invokesUpstream]
  · intro hf hi hk
    cases hfile : req.file with
    | none => exact absurd hfile hf
    | some f => simp [editHandler, editStage, hfile, hi, hk, invokesUpstream]

/-- Witness for C2: the three validation branches at concrete requests. -/
theorem C2_witness :
    editHandler (some "k") { file := none, instruction := some "x" }
      nilUpstream = EditResponse.jsonError "Missing file" 400 ∧
    editHandler (some "k") { file := some exFileSmall, instruction := none }
      nilUpstream = EditResponse.jsonError "Missing instruction" 400 ∧
    editHandler none { file := some exFileSmall, instruction := some "go" }
      nilUpstream = EditResponse.jsonError "Missing GEMINI_API_KEY" 500 := by
  refine ⟨?_, ?_, ?_⟩
  · exact ((C2_edit_validation_order (some "k")
      { file := none, instruction := some "x" } nilUpstream).1 rfl).1
  · exact ((C2_edit_validation_order (some "k")
      { file := some exFileSmall, instruction := none } nilUpstream).2.1
      (by simp) rfl).1
  · exact ((C2_edit_validation_order none
      { file := some exFileSmall, instruction := some "go" } nilUpstream).2.2
      (by simp) (by simp) rfl).1

/-- Claim C10 (confirmed): a non-empty all-whitespace instruction passes the
truthiness check (the code tests `!instruction`, not a trimmed value) and the
upstream provider is invoked with that instruction verbatim as the text
part of the request. -/
theorem C10_whitespace_instruction_passes (k : String) (f : EditFile)
    (s : String) (hk : k ≠ "") (hs : s ≠ "")
    (_hws : s.toList.all Char.isWhitespace = true) :
    editStage (some k) { file := some f, instruction := some s } =
      EditStage.callUpstream (mkUpstreamRequest f s) ∧
    ReqPart.text s ∈ (mkUpstreamRequest f s).parts := by
  constructor
  · simp [editStage, hs, hk]
  · simp [mkUpstreamRequest]

/-- Witness for C10 at the single-space instruction. -/
theorem C10_witness :
    editStage (some "k") { file := some exEmptyFile, instruction := some " " } =
      EditStage.callUpstream (mkUpstreamRequest exEmptyFile " ") ∧
    ReqPart.text " " ∈ (mkUpstreamRequest exEmptyFile " ").parts :=
  C10_whitespace_instruction_passes "k" exEmptyFile " " (by decide) (by decide)
    (by decide)

/-- Claim C1 counterexample: in `exRespC1` the first candidate's parts are
an inline-data part with an empty payload followed by a part carrying the
non-empty inline image payload `QQ==`. A part therefore carries inline
binary image data, so the claim requires the handler to return it as the
success body — but because `find` selects the first part whose `data` field
is merely defined, and the subsequent truthiness guard rejects its empty
payload, the handler instead returns the `NoImageReturned` 502 error. -/
theorem C1_counterexample :
    editRespond exRespC1 = EditResponse.jsonError "No image returned from model" 502 ∧
    exPartGood ∈ getParts exRespC1 ∧
    partData exPartGood = some "QQ==" := by
  refine ⟨by decide, by decide, rfl⟩

/-- Claim C1 (amended): the Edit Handler selects the first content part of
the first candidate whose inline `data` field is present, even when that
payload is empty; it returns the `NoImageReturned` error (HTTP 502, JSON
body, no image bytes) when no part has a present `data` field and also when
the selected part's payload is the empty string; otherwise it succeeds with
that part's decoded payload. -/
theorem C1_amended_first_present_part (r : UpstreamResponse) :
    ((∀ p ∈ getParts r, partData p = none) →
      editRespond r = EditResponse.jsonError "No image returned from model" 502) ∧
    (∀ pre sel post, getParts r = pre ++ sel :: post →
      (∀ q ∈ pre, partData q = none) →
      ∀ d, partData sel = some d →
        (d = "" →
          editRespond r = EditResponse.jsonError "No image returned from model" 502) ∧
        (d ≠ "" →
          editRespond r = EditResponse.imageBytes (decodeBase64 d)
            (if (partMime sel).getD "" = "" then "image/png"
             else (partMime sel).getD "")
            "no-store")) := by
  constructor
  · intro h
    have hf : (getParts r).find? (fun p => (partData p).isSome) = none := by
      rw [List.find?_eq_none]
      intro x hx
      simp [h x hx]
    simp [editRespond, hf]
  · intro pre sel post hsplit hpre d hd
    have hfind : (getParts r).find? (fun p => (partData p).isSome) = some sel := by
      rw [hsplit, List.find?_append]
      have h1 : pre.find? (fun p => (partData p).isSome) = none := by
        rw [List.find?_eq_none]
        intro x hx
        simp [hpre x hx]
      rw [h1, List.find?_cons_of_pos _ (by simp [hd])]
      rfl
    constructor
    · intro he
      simp [editRespond, hfind, hd, he]
    · intro hne
      simp [editRespond, hfind, hd, hne]

/-- Witness for the amended C1: the empty-payload part is selected and the
handler answers 502. -/
theorem C1_amended_witness :
    editRespond exRespC1 = EditResponse.jsonError "No image returned from model" 502 :=
  ((C1_amended_first_present_part exRespC1).2 [] exPartEmpty [exPartGood] rfl
    (by simp) "" rfl).1 rfl

/-- Claim C7 (confirmed): every successful Edit Handler response consists of
exactly the base64-decoded payload of the selected part, carries
`Cache-Control: no-store`, and its content type is the part's declared MIME
type, with `image/png` substituted when the part declares none (an absent or
empty declaration). -/
theorem C7_success_response_shape (r : UpstreamResponse) (body : Bytes)
    (ct cc : String) (h : editRespond r = EditResponse.imageBytes body ct cc) :
    ∃ p, p ∈ getParts r ∧ ∃ d, partData p = some d ∧ d ≠ "" ∧
      body = decodeBase64 d ∧ cc = "no-store" ∧
      (∀ m, partMime p = some m → m ≠ "" → ct = m) ∧
      ((partMime p = none ∨ partMime p = some "") → ct = "image/png") := by
  unfold editRespond at h
  split at h
  · exact absurd h (by simp)
  · rename_i p hfind
    refine ⟨p, List.mem_of_find?_eq_some hfind, ?_⟩
    split at h
    · exact absurd h (by simp)
    · rename_i d hd
      split at h
      · exact absurd h (by simp)
      · rename_i he
        rw [EditResponse.imageBytes.injEq] at h
        obtain ⟨hb, hct, hcc⟩ := h
        refine ⟨d, hd, he, hb.symm, hcc.symm, ?_, ?_⟩
        · intro m hm hmne
          rw [hm] at hct
          simp [hmne] at hct
          exact hct.symm
        · intro hmm
          rcases hmm with hm | hm <;>
            · rw [hm] at hct
              simpa using hct.symm

/-- Witness for C7 at a concrete successful response. -/
theorem C7_witness :
    ∃ p, p ∈ getParts exRespGood ∧ ∃ d, partData p = some d ∧ d ≠ "" ∧
      ([65] : Bytes) = decodeBase64 d ∧ ("no-store" : String) = "no-store" ∧
      (∀ m, partMime p = some m → m ≠ "" → ("image/png" : String) = m) ∧
      ((partMime p = none ∨ partMime p = some "") →
        ("image/png" : String) = "image/png") :=
  C7_success_response_shape exRespGood [65] "image/png" "no-store" (by decide)

/-- The empty byte string is among the truncations of any byte string. -/
theorem nil_mem_byteTakes (c : Bytes) : [] ∈ byteTakes c := by
  unfold byteTakes
  refine List.mem_map.mpr ⟨0, ?_, rfl⟩
  simp

/-! ### Claims about the Upload Handler -/

/-- Claim C5 (confirmed): with a file part present the Upload Handler
answers 200 with `{ url: "/uploads/<filename>" }`, and writes exactly the
uploaded bytes to `<cwd>/public/uploads/<filename>` — the file that url
resolves to, since the framework serves `<cwd>/public/X` at `/X` — so the
stored content round-trips byte-for-byte. -/
theorem C5_upload_roundtrip (req : UploadRequest) (f : UploadFile)
    (cwd : String) (now : Nat) (uuid : String) (h : req.file = some f) :
    (uploadHandler req cwd now uuid).status = 200 ∧
    (uploadHandler req cwd now uuid).body =
      UploadBody.urlBody ("/uploads/" ++ storedFilename f.name now uuid) ∧
    FsOp.writeFileDirect
        (uploadsDirOf cwd ++ "/" ++ storedFilename f.name now uuid) f.content ∈
      (uploadHandler req cwd now uuid).fsOps := by
  refine ⟨?_, ?_, ?_⟩ <;> simp [uploadHandler, h]

/-- Witness for C5 at the concrete request `exUploadReq`. -/
theorem C5_witness :
    (uploadHandler exUploadReq "" 0 "u").status = 200 ∧
    (uploadHandler exUploadReq "" 0 "u").body =
      UploadBody.urlBody ("/uploads/" ++ storedFilename (some "a.png") 0 "u") ∧
    FsOp.writeFileDirect
        (uploadsDirOf "" ++ "/" ++ storedFilename (some "a.png") 0 "u") [1, 2, 3] ∈
      (uploadHandler exUploadReq "" 0 "u").fsOps :=
  C5_upload_roundtrip exUploadReq { name := some "a.png", content := [1, 2, 3] }
    "" 0 "u" rfl

/-- Claim C6 counterexample: `photo` and `img` are original filenames with
no extension (no dot anywhere), yet the derived extensions are `photo` and
`img` — two different values, and not `png` — so no fixed fallback extension
is applied when the original filename merely has no extension. -/
theorem C6_counterexample :
    uploadExt (some "photo") = "photo" ∧
    uploadExt (some "img") = "img" ∧
    uploadExt (some "photo") ≠ uploadExt (some "img") ∧
    uploadExt (some "photo") ≠ "png" := by
  refine ⟨by decide, by decide, by decide, by decide⟩

/-- Claim C6 (amended): the stored filename has the form
`<wall-clock-millis>-<random-uuid>.<ext>` inside the single flat directory
`<cwd>/public/uploads`, where `<ext>` is the lowercased last `.`-separated
segment of the original filename; the fixed fallback extension `png` is used
exactly when the original filename is absent or that last segment is empty —
not whenever the name lacks an extension: a dotless name becomes the
extension itself. -/
theorem C6_amended_filename_form (req : UploadRequest) (f : UploadFile)
    (cwd : String) (now : Nat) (uuid : String) (h : req.file = some f) :
    (uploadHandler req cwd now uuid).fsOps =
      [FsOp.mkdirRecursive (uploadsDirOf cwd),
       FsOp.writeFileDirect
         (uploadsDirOf cwd ++ "/" ++
           (toString now ++ "-" ++ uuid ++ "." ++ uploadExt f.name)) f.content] ∧
    (∀ n, f.name = some n → jsPopSplitDot n ≠ "" →
      uploadExt f.name = jsToLower (jsPopSplitDot n)) ∧
    (∀ n, f.name = some n → jsPopSplitDot n = "" → uploadExt f.name = "png") ∧
    (f.name = none → uploadExt f.name = "png") := by
  refine ⟨by simp [uploadHandler, h, storedFilename], ?_, ?_, ?_⟩
  · intro n hn hne
    rw [hn]
    show jsToLower (if jsPopSplitDot n = "" then "png" else jsPopSplitDot n) =
      jsToLower (jsPopSplitDot n)
    rw [if_neg hne]
  · intro n hn he
    rw [hn]
    show jsToLower (if jsPopSplitDot n = "" then "png" else jsPopSplitDot n) =
      "png"
    rw [if_pos he]
    rfl
  · intro hn
    rw [hn]
    rfl

/-- Witness for the amended C6 at a dotless filename. -/
theorem C6_witness :
    (uploadHandler exUploadReqDotless "" 5 "u").fsOps =
      [FsOp.mkdirRecursive (uploadsDirOf ""),
       FsOp.writeFileDirect
         (uploadsDirOf "" ++ "/" ++
           (toString 5 ++ "-" ++ "u" ++ "." ++ uploadExt (some "photo"))) [7]] ∧
    (∀ n, (some "photo" : Option String) = some n → jsPopSplitDot n ≠ "" →
      uploadExt (some "photo") = jsToLower (jsPopSplitDot n)) ∧
    (∀ n, (some "photo" : Option String) = some n → jsPopSplitDot n = "" →
      uploadExt (some "photo") = "png") ∧
    ((some "photo" : Option String) = none → uploadExt (some "photo") = "png") :=
  C6_amended_filename_form exUploadReqDotless
    { name := some "photo", content := [7] } "" 5 "u" rfl

/-- Claim C9 counterexample: the original filename `photo.` is defined and
non-empty, yet because its last `.`-separated segment is empty the fallback
extension `png` is used — so the fallback is not reserved for empty or
undefined names. -/
theorem C9_counterexample :
    uploadExt (some "photo.") = "png" ∧ ("photo." : String) ≠ "" := by
  refine ⟨by decide, by decide⟩

/-- Claim C9 (amended): for a non-empty original filename containing no `.`
character the derived extension is the entire name lowercased; the fallback
`png` is used when the name is undefined and, more generally, exactly when
the name's last `.`-separated segment is empty (the name is empty or ends
with a dot) — not only when the name is empty or undefined. -/
theorem C9_amended_extension_rule (name : Option String) :
    (∀ n, name = some n → n ≠ "" → '.' ∉ n.toList → uploadExt name = jsToLower n) ∧
    (name = none → uploadExt name = "png") ∧
    (∀ n, name = some n → jsPopSplitDot n = "" → uploadExt name = "png") := by
  refine ⟨?_, ?_, ?_⟩
  · intro n hn hne hdot
    rw [hn]
    have hp : jsPopSplitDot n = n := jsPopSplitDot_no_dot n hdot
    show jsToLower (if jsPopSplitDot n = "" then "png" else jsPopSplitDot n) =
      jsToLower n
    rw [hp, if_neg hne]
  · intro hn
    rw [hn]
    rfl
  · intro n hn he
    rw [hn]
    show jsToLower (if jsPopSplitDot n = "" then "png" else jsPopSplitDot n) =
      "png"
    rw [if_pos he]
    rfl

/-- Witness for the amended C9 at the dotless name `readme`. -/
theorem C9_witness : uploadExt (some "readme") = jsToLower "readme" :=
  (C9_amended_extension_rule (some "readme")).1 "readme" rfl (by decide) (by decide)

/-- Claim C3 counterexample: on the concrete request `exUploadReq` the
handler's filesystem trace writes the bytes `[1, 2, 3]` straight to the
final path with `fs.writeFile` and performs no rename, so under the
non-atomic write model a concurrent reader can observe the truncated
content `[1]` at the final path. -/
theorem C3_counterexample :
    renamesInto (uploadHandler exUploadReq "" 0 "u").fsOps
      "/public/uploads/0-u.png" = false ∧
    FsOp.writeFileDirect "/public/uploads/0-u.png" [1, 2, 3] ∈
      (uploadHandler exUploadReq "" 0 "u").fsOps ∧
    [1] ∈ observableDuring (uploadHandler exUploadReq "" 0 "u").fsOps
      "/public/uploads/0-u.png" ∧
    ([1] : Bytes) ≠ [1, 2, 3] := by
  refine ⟨by decide, by decide, by decide, by decide⟩

/-- Claim C3 (amended): the Upload Handler writes the uploaded bytes to the
final stored path directly with a single `fs.writeFile` call — there is no
temp-file-and-rename step — so publication is not atomic: for every
non-empty upload a truncated (strictly shorter) content is observable at
the final path while the write is in progress. -/
theorem C3_amended_direct_write (req : UploadRequest) (f : UploadFile)
    (cwd : String) (now : Nat) (uuid : String) (h : req.file = some f)
    (hne : f.content ≠ []) :
    renamesInto (uploadHandler req cwd now uuid).fsOps
      (uploadsDirOf cwd ++ "/" ++ storedFilename f.name now uuid) = false ∧
    FsOp.writeFileDirect
        (uploadsDirOf cwd ++ "/" ++ storedFilename f.name now uuid) f.content ∈
      (uploadHandler req cwd now uuid).fsOps ∧
    ∃ obs ∈ observableDuring (uploadHandler req cwd now uuid).fsOps
        (uploadsDirOf cwd ++ "/" ++ storedFilename f.name now uuid),
      obs.length < f.content.length := by
  refine ⟨?_, ?_, ?_⟩
  · simp [uploadHandler, h, renamesInto]
  · simp [uploadHandler, h]
  · refine ⟨[], ?_, ?_⟩
    · simp only [uploadHandler, h, observableDuring, observableAt, List.map_cons,
        List.map_nil, List.flatten]
      simp [nil_mem_byteTakes]
    · simpa [List.length_pos] using hne

/-- Witness for the amended C3 at the concrete request `exUploadReq`. -/
theorem C3_witness :
    renamesInto (uploadHandler exUploadReq "" 0 "u").fsOps
      (uploadsDirOf "" ++ "/" ++ storedFilename (some "a.png") 0 "u") = false ∧
    FsOp.writeFileDirect
        (uploadsDirOf "" ++ "/" ++ storedFilename (some "a.png") 0 "u") [1, 2, 3] ∈
      (uploadHandler exUploadReq "" 0 "u").fsOps ∧
    ∃ obs ∈ observableDuring (uploadHandler exUploadReq "" 0 "u").fsOps
        (uploadsDirOf "" ++ "/" ++ storedFilename (some "a.png") 0 "u"),
      obs.length < ([1, 2, 3] : Bytes).length :=
  C3_amended_direct_write exUploadReq { name := some "a.png", content := [1, 2, 3] }
    "" 0 "u" rfl (by decide)

/-! ### Claims about the Client Controller -/

/-- Claim C4 counterexample: from `exStateC4`, which holds the previously
stored result reference `/uploads/prev.png`, a failed `saveLocally` call
surfaces the error and clears loading — but the previous result reference is
not left unchanged: both outbound operations clear `resultUrl` when they
start, so after the failure it is `none` (and likewise for the edit call). -/
theorem C4_counterexample :
    exStateC4.resultUrl = some "/uploads/prev.png" ∧
    (saveLocally exStateC4 exFailResp).resultUrl = none ∧
    (saveLocally exStateC4 exFailResp).error = some "boom" ∧
    (saveLocally exStateC4 exFailResp).loading = none ∧
    (editWithGemini exStateC4 exFailResp "blob:x").resultUrl = none := by
  refine ⟨rfl, by decide, by decide, by decide, by decide⟩

/-- Claim C4 (amended): for every failed outbound operation — `saveLocally`
or `editWithGemini` run with a file selected and receiving a non-success
response — the controller surfaces an error message and clears loading
state, and the selected image and the instruction text are left unchanged;
the previously stored result reference, however, is not preserved: it is
cleared when the operation starts, so it is `none` after the failure. -/
theorem C4_amended_failure_frame (st : ClientState) (resp : FetchResp)
    (blobUrl : String) (hf : st.file.isSome = true) (hok : resp.ok = false) :
    ((saveLocally st resp).error.isSome = true ∧
     (saveLocally st resp).loading = none ∧
     (saveLocally st resp).file = st.file ∧
     (saveLocally st resp).instruction = st.instruction ∧
     (saveLocally st resp).resultUrl = none) ∧
    ((editWithGemini st resp blobUrl).error.isSome = true ∧
     (editWithGemini st resp blobUrl).loading = none ∧
     (editWithGemini st resp blobUrl).file = st.file ∧
     (editWithGemini st resp blobUrl).instruction = st.instruction ∧
     (editWithGemini st resp blobUrl).resultUrl = none) := by
  cases hfile : st.file with
  | none =>
      rw [hfile] at hf
      exact absurd hf (by simp)
  | some v =>
      constructor <;>
        refine ⟨?_, ?_, ?_, ?_, ?_⟩ <;>
          simp [saveLocally, editWithGemini, hfile, hok]

/-- Witness for the amended C4 at the concrete failing call. -/
theorem C4_witness :
    ((saveLocally exStateC4 exFailResp).error.isSome = true ∧
     (saveLocally exStateC4 exFailResp).loading = none ∧
     (saveLocally exStateC4 exFailResp).file = exStateC4.file ∧
     (saveLocally exStateC4 exFailResp).instruction = exStateC4.instruction ∧
     (saveLocally exStateC4 exFailResp).resultUrl = none) ∧
    ((editWithGemini exStateC4 exFailResp "blob:x").error.isSome = true ∧
     (editWithGemini exStateC4 exFailResp "blob:x").loading = none ∧
     (editWithGemini exStateC4 exFailResp "blob:x").file = exStateC4.file ∧
     (editWithGemini exStateC4 exFailResp "blob:x").instruction =
       exStateC4.instruction ∧
     (editWithGemini exStateC4 exFailResp "blob:x").resultUrl = none) :=
  C4_amended_failure_frame exStateC4 exFailResp "blob:x" (by decide) rfl

/-! ### Claims about the countdown timer -/

/-- After the unmount cleanup the interval is gone, so a timer firing
changes nothing. -/
theorem tick_unmount (s : BoothState) : tick (unmount s) = unmount s := by
  simp [tick, unmount]

/-- No number of timer firings after unmount changes the state. -/
theorem tickN_unmount (k : Nat) (s : BoothState) :
    tickN k (unmount s) = unmount s := by
  induction k with
  | zero => rfl
  | succ k ih => simp [tickN, ih, tick_unmount]

/-- Timer firings compose additively. -/
theorem tickN_add (a b : Nat) (st : BoothState) :
    tickN (b + a) st = tickN b (tickN a st) := by
  induction b with
  | zero => simp [tickN]
  | succ b ih =>
      have hb : b + 1 + a = (b + a) + 1 := by omega
      rw [hb]
      simp [tickN, ih]

/-- A state fixed by one firing is fixed by any number of firings. -/
theorem tickN_fixed (s : BoothState) (h : tick s = s) (k : Nat) :
    tickN k s = s := by
  induction k with
  | zero => rfl
  | succ k ih => simp [tickN, ih, h]

/-- Claim C8 (confirmed): the countdown is single-flight — starting it again
while it is active changes nothing, so one timer sequence runs and the
capture callback fires exactly once, on the fifth one-second firing after
the first start (no earlier, and never again on later firings); and after
the unmount cleanup at any point, no further firing ever invokes the
capture callback. -/
theorem C8_countdown_single_flight (st : BoothState)
    (hcam : st.cameraReady = true) (hrun : st.isCountingDown = false) :
    startCountdown (startCountdown st) = startCountdown st ∧
    (∀ k, k < 5 → (tickN k (startCountdown st)).captures = st.captures) ∧
    (tickN 5 (startCountdown st)).captures = st.captures + 1 ∧
    (∀ m, 5 ≤ m → (tickN m (startCountdown st)).captures = st.captures + 1) ∧
    (∀ j k, (tickN k (unmount (tickN j (startCountdown st)))).captures =
      (tickN j (startCountdown st)).captures) := by
  have hs1 : startCountdown st =
      { st with isCountingDown := true, countdown := some 5,
                timerActive := true } := by
    simp [startCountdown, hcam, hrun]
  refine ⟨?_, ?_, ?_, ?_, ?_⟩
  · rw [hs1]
    simp [startCountdown, hcam]
  · intro k hk
    interval_cases k <;> (rw [hs1]; rfl)
  · rw [hs1]
    rfl
  · intro m hm
    obtain ⟨j, hj⟩ := Nat.le.dest hm
    rw [← hj, Nat.add_comm, tickN_add 5 j, hs1]
    have h5 : tickN 5 ({ st with isCountingDown := true, countdown := some 5, timerActive := true } : BoothState) = { st with isCountingDown := false, countdown := none, timerActive := false, captures := st.captures + 1 } := rfl
    rw [h5, tickN_fixed _ rfl j]
  · intro j k
    rw [tickN_unmount]
    rfl

/-- Witness for C8 at a fresh live-camera state. -/
theorem C8_witness :
    startCountdown (startCountdown exBooth) = startCountdown exBooth ∧
    (∀ k, k < 5 → (tickN k (startCountdown exBooth)).captures = exBooth.captures) ∧
    (tickN 5 (startCountdown exBooth)).captures = exBooth.captures + 1 ∧
    (∀ m, 5 ≤ m →
      (tickN m (startCountdown exBooth)).captures = exBooth.captures + 1) ∧
    (∀ j k, (tickN k (unmount (tickN j (startCountdown exBooth)))).captures =
      (tickN j (startCountdown exBooth)).captures) :=
  C8_countdown_single_flight exBooth rfl rfl

end Photobooth
